import Mathlib

/-!
Verification of the pcbooth orchestration engine against its specification.

The Python modules under `src/pcbooth` are shallowly embedded below:
pure dictionary/list manipulation is translated directly, Blender-side
effects (render invocations, image data, world transforms computed by
`bpy` operators) are abstracted into environment records whose fields
stand for the values the host engine would produce, and Python's
`try`/`except`/`finally` control flow is translated into explicit
case analysis.  Machine-level numeric values that only flow through the
code (image pixels, matrices, focus distances) are represented by
abstract identifiers (`Nat`), since the code never inspects them.
-/

namespace PCBooth

/-! ## Python truthiness and `str.join`

`pyTruthyOptInt` models Python truthiness of an `Optional[int]` value:
`None` and `0` are falsy, every other integer is truthy.
`pyJoin` models `sep.join(list_of_strings)`. -/

def pyTruthyOptInt : Option Int → Bool
  | none => false
  | some t => t != 0

/-- Python `s.startswith(pre)`, modelled over the character sequence of the
strings (byte-level and character-level prefixes agree). -/
def pyStartsWith (s pre : String) : Bool :=
  s.data.take pre.data.length == pre.data

def pyJoin (sep : String) : List String → String
  | [] => ""
  | [x] => x
  | x :: y :: xs => x ++ sep ++ pyJoin sep (y :: xs)

/-! ## Job.update_status (core/job.py lines 86-97)

State of a `Job`'s progress counters; `__init__` sets `_iter = 0` and
`_total = 1`.  `update_status(total)` tests `if total:` (truthiness,
not an `is None` comparison), so `0` takes the increment branch. -/

structure JobProgress where
  iter : Int
  total : Int
deriving DecidableEq

def jobProgressInit : JobProgress := { iter := 0, total := 1 }

def update_status (total : Option Int) (s : JobProgress) : JobProgress :=
  if pyTruthyOptInt total then
    { s with total := total.getD 0 }
  else
    { s with iter := s.iter + 1 }

/-! ## UserAnimationJob._parse_frames (core/job.py lines 174-183)

`FRAMES` list elements are `Literal["start","end"] | int`.  The method
maps `"start"`/`"end"` through `frame_map` to the studio's
`frame_start`/`frame_end` anchors and collects the results into a set. -/

inductive FrameSpec where
  | fstart : FrameSpec
  | fend : FrameSpec
  | num : Int → FrameSpec
deriving DecidableEq

def frameMapGet (frame_start frame_end : Int) : FrameSpec → Int
  | .fstart => frame_start
  | .fend => frame_end
  | .num n => n

def parse_frames (frames : List FrameSpec) (frame_start frame_end : Int) :
    Bool × Finset Int :=
  let has_animation_data := frames != []
  let frames := if frames = [] then [FrameSpec.fstart] else frames
  (has_animation_data, (frames.map (frameMapGet frame_start frame_end)).toFinset)

/-! ## Python dictionary primitives

Association lists standing for Python dicts: `dictSet` is `d[k] = v`
(replace the existing binding in place, else append), lookup is
`List.lookup`. -/

def dictSet {α : Type} (k : String) (v : α) : List (String × α) → List (String × α)
  | [] => [(k, v)]
  | kv :: rest => if kv.1 = k then (k, v) :: rest else kv :: dictSet k v rest

/-! ## Position presets and change_position (modules/studio.py 24-28, 264-270;
modules/camera.py 100-138)

`Studio.presets` stores Euler rotations built with `radians(d)`; the degree
triples are used here as a faithful injective representation of those values.
A missing dictionary key raises `KeyError` in Python, modelled as `none`. -/

abbrev Rot := Int × Int × Int

def studioPresets : List (String × Rot) :=
  [("TOP", (0, 0, 0)), ("BOTTOM", (0, 180, 0)), ("REAR", (0, 0, 180))]

structure StudioPos where
  rotation_euler : Rot
deriving DecidableEq

def studio_change_position (key : String) (s : StudioPos) : Option StudioPos :=
  (studioPresets.lookup key).map (fun r => { s with rotation_euler := r })

/-- A Camera instance: `matrix_world` and the depth-of-field pair are values
produced by the host engine, abstracted to identifiers; `positions` and
`focuses` are the per-preset saved dictionaries. -/
structure CameraState where
  name : String
  matrix_world : Nat
  dof : Nat × Nat
  positions : List (String × Nat)
  focuses : List (String × (Nat × Nat))
deriving DecidableEq

/-- Camera.save_position: `self.positions[key] = self.object.matrix_world.copy()`. -/
def camera_save_position (key : String) (cam : CameraState) : CameraState :=
  { cam with positions := dictSet key cam.matrix_world cam.positions }

/-- Camera.save_focus: `self.focuses[key] = (focus_distance, aperture_fstop)`. -/
def camera_save_focus (key : String) (cam : CameraState) : CameraState :=
  { cam with focuses := dictSet key cam.dof cam.focuses }

/-- Camera.change_position: `self.object.matrix_world = self.positions[key].copy()`
followed by `change_focus(key)` which reads `self.focuses[key]`. -/
def camera_change_position (key : String) (cam : CameraState) : Option CameraState :=
  match cam.positions.lookup key, cam.focuses.lookup key with
  | some m, some f => some { cam with matrix_world := m, dof := f }
  | _, _ => none

/-! ## Studio._get_top_bottom_components (modules/studio.py 235-262)

`componentsCol` is `bpy.data.collections.get("Components")`; when the
collection is missing the method returns early, leaving the lists at the
empty value `__init__` gave them, so the result is modelled as the final
attribute values starting from empty lists. -/

structure SceneObj where
  name : String
  library : Bool
  pcbSide : Option String
deriving DecidableEq

def get_top_bottom_components (is_pcb : Bool) (componentsCol : Option (List SceneObj))
    (objects : List SceneObj) : List SceneObj × List SceneObj :=
  if is_pcb then
    match componentsCol with
    | none => ([], [])
    | some comps =>
      (comps.filter (fun c => c.pcbSide.isSome && !c.library && c.pcbSide == some "T"),
       comps.filter (fun c => c.pcbSide.isSome && !c.library && c.pcbSide == some "B"))
  else
    let top := objects.filter (fun o => !(pyStartsWith o.name "_") && !o.library)
    (top, top)

/-! ## Job.report and the execute guard (core/job.py 33-41, 99-121)

`items` maps labels to display strings built with `", ".join`; the
`parameters` entry is added only when `self.params` is a nonempty dict.
`report` returns `1` (skip) when any display string is empty, and
`execute` runs `iterate()` only when `report()` returned `0`. -/

def report_items (positions cameras backgrounds : List String)
    (params : List (String × String)) : List (String × String) :=
  let base := [("rendered object positions", pyJoin ", " positions),
               ("cameras", pyJoin ", " cameras),
               ("backgrounds", pyJoin ", " backgrounds)]
  if params = [] then base
  else base ++ [("parameters", pyJoin ", " (params.map (fun kv => kv.1 ++ "=" ++ kv.2)))]

def report (positions cameras backgrounds : List String)
    (params : List (String × String)) : Int :=
  if (report_items positions cameras backgrounds params).all (fun item => item.2 != "") then 0
  else 1

def execute_runs_iterate (positions cameras backgrounds : List String)
    (params : List (String × String)) : Bool :=
  report positions cameras backgrounds params == 0

/-! ## Job._get_params (core/job.py 65-75)

`Job.__init__` runs `params = dict(self.ParameterSchema(**arg))` inside
`try ... except TypeError`, falling back to `dict(self.ParameterSchema())`
(all defaults) only when `TypeError` is raised.  The embedding models the
concrete schema of `UserAnimationJob` (`FRAMES: List[Literal["start","end"] | int] = []`)
and the relevant pydantic semantics: extra keyword fields are ignored, a
missing field takes its declared default, and a field value that fails
validation raises `pydantic.ValidationError` — a `ValueError` subclass, not
a `TypeError`.  `TypeError` arises from the `**arg` unpacking itself, when
the supplied parameter object is not a mapping.  Numeric-string coercion of
list elements is not modelled (no claim depends on it). -/

inductive PyVal where
  | pyInt : Int → PyVal
  | pyStr : String → PyVal
  | pyList : List PyVal → PyVal
  | pyDict : List (String × PyVal) → PyVal

inductive PyErr where
  | typeError : PyErr
  | validationError : PyErr
deriving DecidableEq

def coerceFrameElem : PyVal → Except PyErr FrameSpec
  | .pyInt n => .ok (.num n)
  | .pyStr s =>
    if s = "start" then .ok .fstart
    else if s = "end" then .ok .fend
    else .error .validationError
  | _ => .error .validationError

def coerceFramesVal : PyVal → Except PyErr (List FrameSpec)
  | .pyList xs => xs.mapM coerceFrameElem
  | _ => .error .validationError

/-- Validation of `UserAnimationJob.ParameterSchema(**kvs)`: unknown keys are
ignored, a missing `FRAMES` key takes the declared default `[]`. -/
def schemaValidate (kvs : List (String × PyVal)) : Except PyErr (List FrameSpec) :=
  match kvs.lookup "FRAMES" with
  | none => .ok []
  | some v => coerceFramesVal v

def get_params (arg : PyVal) : Except PyErr (List FrameSpec) :=
  match arg with
  | .pyDict kvs =>
    match schemaValidate kvs with
    | .ok p => .ok p
    | .error .typeError => .ok []
    | .error e => .error e
  | _ => .ok []

/-! ## RendererWrapper (modules/renderer.py 194-321)

The Blender render backend is abstracted into an environment: images are
identifiers (`Nat`), `renderedImage` is what `bpy.ops.render.render`
produces for a camera, `loadOk` says whether `bpy.data.images.load`
succeeds on the cache file, `extOf` is the file extension Blender assigns
to an image format, and `scaled` is the result of `image.copy()` followed
by `scale(tmb_x, tmb_y)`.  The state records the `cache` attribute, an
instrumentation count of underlying render invocations, and the log of
`save_render` calls. -/

structure REnv where
  formats : List String
  renderPath : String
  extOf : String → String
  renderedImage : Nat → Nat
  loadOk : Bool
  scaled : Nat → Nat

structure RendererState where
  cache : Option Nat
  renderCount : Nat
  saved : List (String × Nat)
deriving DecidableEq

/-- RendererWrapper.__init__ sets `self.cache = None`. -/
def rendererInit : RendererState := { cache := none, renderCount := 0, saved := [] }

/-- RendererWrapper._init_render: render once (`bpy.ops.render.render`),
then try to load the written cache file; on load failure the `cache`
attribute keeps its previous value (`None`, since `_init_render` is only
reached with an empty cache).  The method has no return value. -/
def init_render (env : REnv) (camera : Nat) (s : RendererState) : RendererState :=
  let s2 := { s with renderCount := s.renderCount + 1 }
  if env.loadOk then { s2 with cache := some (env.renderedImage camera) } else s2

/-- RendererWrapper.render (lines 247-271). -/
def render (env : REnv) (camera : Nat) (file_name : String)
    (format_override : Option String) (s : RendererState) : RendererState :=
  let s := if s.cache = none then init_render env camera s else s
  match s.cache with
  | none => s
  | some img =>
    let formats := match format_override with | some f => [f] | none => env.formats
    { s with saved := s.saved ++
        formats.map (fun fmt => (env.renderPath ++ file_name ++ env.extOf fmt, img)) }

/-- RendererWrapper.thumbnail (lines 273-300).  Note the source line
`self.cache = self._init_render(camera)`: `_init_render` returns `None`,
so after its side effects run, the `cache` attribute is overwritten with
`None` and the following `if not self.cache: return` always fires. -/
def thumbnail (env : REnv) (camera : Nat) (file_name : String)
    (format_override : Option String) (s : RendererState) : RendererState :=
  let s :=
    if s.cache = none then
      let s2 := init_render env camera s
      { s2 with cache := none }
    else s
  match s.cache with
  | none => s
  | some img =>
    let formats := match format_override with | some f => [f] | none => env.formats
    { s with saved := s.saved ++
        formats.map (fun fmt =>
          (env.renderPath ++ file_name ++ "_thumbnail" ++ env.extOf fmt, env.scaled img)) }

/-! ## Studio._add_cameras (modules/studio.py 64-93; modules/camera.py 46-61,
187-192)

Cameras are created for every entry of `Camera.presets` (plus the optional
predefined custom camera) with empty `positions`/`focuses` dictionaries;
then for every `Studio.presets` position each camera is aligned (a host
operation, abstracted into `AlignEnv`) and its transform and focus are
saved under that position's key; finally every camera is moved back to the
`TOP` position and `self.cameras` is the configuration-enabled subset. -/

structure AlignEnv where
  alignMatrix : String → String → Nat
  alignFocus : String → String → Nat × Nat

def cameraPresetNames : List String :=
  ["TOP", "ISO", "FRONT", "LEFT", "RIGHT", "PHOTO1", "PHOTO2"]

def mkCamera (name : String) : CameraState :=
  { name := name, matrix_world := 0, dof := (0, 0), positions := [], focuses := [] }

def camera_align (env : AlignEnv) (pos : String) (cam : CameraState) : CameraState :=
  { cam with matrix_world := env.alignMatrix cam.name pos,
             dof := env.alignFocus cam.name pos }

/-- One iteration of the position loop: align every camera at `pos` and save
its transform and focus under key `pos`. -/
def savePass (env : AlignEnv) (pos : String) (cams : List CameraState) :
    List CameraState :=
  cams.map (fun cam => camera_save_focus pos (camera_save_position pos (camera_align env pos cam)))

def addCamerasSaved (env : AlignEnv) (customPresent : Bool) : List CameraState :=
  let cams := cameraPresetNames.map mkCamera ++
    (if customPresent then [mkCamera "CUSTOM"] else [])
  (studioPresets.map Prod.fst).foldl (fun cams pos => savePass env pos cams) cams

/-- The final `for camera in Camera.objects: camera.change_position("TOP")`
loop; `change_position` raises `KeyError` (modelled `none`) on a missing
dictionary key. -/
def changeAllTop : List CameraState → Option (List CameraState)
  | [] => some []
  | c :: cs =>
    match camera_change_position "TOP" c, changeAllTop cs with
    | some c2, some cs2 => some (c2 :: cs2)
    | _, _ => none

/-- Studio._add_cameras: returns `(Camera.objects, studio.cameras)` in their
final states. -/
def add_cameras (env : AlignEnv) (customPresent : Bool) (cfgCameras : List String) :
    Option (List CameraState × List CameraState) :=
  match changeAllTop (addCamerasSaved env customPresent) with
  | none => none
  | some cams => some (cams, cams.filter (fun cam => cfgCameras.contains cam.name))

/-- A camera has a saved transform and a saved focus entry under key `k`. -/
def SavedKey (k : String) (cam : CameraState) : Prop :=
  (cam.positions.lookup k).isSome ∧ (cam.focuses.lookup k).isSome

/-! ## Scoped overrides (modules/job_utilities.py 19-66)

`bpy.data.objects` is the ordered list `w : List BObj`; the components
passed to an override are indices into it.  Loops of the shape
`for component in ...: component.flag = const` become `forIdx` folds of
per-object updates.  The `try`/`finally` discipline of the context
managers is modelled by a cut-off: the body of the `try` may stop after
any number of processed components (`k` for the component loops, `j` for
the whole-scene loop) — covering both a raised exception and normal
completion — while the `finally` loops always run to completion. -/

structure BObj where
  hide_render : Bool
  hide_viewport : Bool
  is_holdout : Bool
  library : Bool
deriving DecidableEq

def updAt {α : Type} : List α → Nat → (α → α) → List α
  | [], _, _ => []
  | x :: xs, 0, f => f x :: xs
  | x :: xs, n + 1, f => x :: updAt xs n f

def forIdx {α : Type} (idxs : List Nat) (f : α → α) (w : List α) : List α :=
  idxs.foldl (fun w i => updAt w i f) w

/-- Indices of every object in the scene, for `for component in bpy.data.objects`. -/
def allIdx {α : Type} (w : List α) : List Nat := List.range w.length

/-- hide_override body: `component.hide_render = True` and, when requested,
`component.hide_viewport = True`. -/
def hideEnter (hide_viewport : Bool) (o : BObj) : BObj :=
  let o2 := { o with hide_render := true }
  if hide_viewport then { o2 with hide_viewport := true } else o2

/-- hide_override finally: both flags are forced to `False` unconditionally. -/
def hideExit (o : BObj) : BObj :=
  { o with hide_render := false, hide_viewport := false }

def hide_override_run (comps : List Nat) (hide_viewport : Bool) (k : Nat)
    (w : List BObj) : List BObj :=
  forIdx comps hideExit (forIdx (comps.take k) (hideEnter hide_viewport) w)

/-- holdout_override full-mode body: hide every non-linked scene object. -/
def holdAllHide (o : BObj) : BObj :=
  if o.library then o else { o with hide_render := true }

/-- holdout_override body on the components: `is_holdout = True`,
`hide_render = False`. -/
def holdEnter (o : BObj) : BObj :=
  { o with is_holdout := true, hide_render := false }

/-- holdout_override finally, first loop: un-hide every non-linked object. -/
def holdExitUnhide (o : BObj) : BObj :=
  if o.library then o else { o with hide_render := false }

/-- holdout_override finally, second loop: clear holdout on non-linked
components. -/
def holdExitUnhold (o : BObj) : BObj :=
  if o.library then o else { o with is_holdout := false }

/-- State of the scene after holdout_override's `try` body stopped (the whole
scene loop after `j` objects, the component loop after `k` components). -/
def holdoutEnterState (comps : List Nat) (full : Bool) (j k : Nat)
    (w : List BObj) : List BObj :=
  forIdx (comps.take k) holdEnter
    (if full then forIdx ((allIdx w).take j) holdAllHide w else w)

def holdout_override_run (comps : List Nat) (full : Bool) (j k : Nat)
    (w : List BObj) : List BObj :=
  forIdx comps holdExitUnhold
    (forIdx (allIdx (holdoutEnterState comps full j k w)) holdExitUnhide
      (holdoutEnterState comps full j k w))

/-- A concrete render environment used to evaluate theorems on closed inputs. -/
def sampleREnv : REnv :=
  { formats := ["PNG", "JPEG"], renderPath := "renders/",
    extOf := fun f => "." ++ f, renderedImage := fun c => c + 1,
    loadOk := true, scaled := fun i => i + 100 }

/-- A concrete alignment environment used to evaluate theorems on closed inputs. -/
def sampleAlignEnv : AlignEnv :=
  { alignMatrix := fun _ _ => 5, alignFocus := fun _ _ => (3, 4) }

/-! ## Theorems -/

theorem pyJoin_ne_empty (l : List String) (hl : l ≠ []) (h : ∀ x ∈ l, x ≠ "") :
    pyJoin ", " l ≠ "" := by
  match l, hl with
  | [x], _ => exact h x (by simp)
  | x :: y :: xs, _ =>
    intro hx
    have := congrArg String.length hx
    simp [pyJoin, String.length_append] at this
    exact absurd this.1.2 (by decide)

theorem updAt_get? {α : Type} (f : α → α) :
    ∀ (w : List α) (i n : Nat),
      (updAt w i f).get? n = if i = n then (w.get? n).map f else w.get? n := by
  intro w
  induction w with
  | nil => intro i n; simp [updAt]
  | cons x xs ih =>
    intro i n
    cases i with
    | zero =>
      cases n with
      | zero => simp [updAt]
      | succ n => simp [updAt]
    | succ i =>
      cases n with
      | zero => simp [updAt]
      | succ n =>
        simp only [updAt, List.get?_cons_succ]
        rw [ih i n]
        by_cases h : i = n <;> simp [h]

theorem updAt_length {α : Type} (f : α → α) :
    ∀ (w : List α) (i : Nat), (updAt w i f).length = w.length := by
  intro w
  induction w with
  | nil => intro i; rfl
  | cons x xs ih => intro i; cases i <;> simp [updAt, ih]

theorem forIdx_length {α : Type} (f : α → α) :
    ∀ (idxs : List Nat) (w : List α), (forIdx idxs f w).length = w.length := by
  intro idxs
  induction idxs with
  | nil => intro w; rfl
  | cons i idxs ih =>
    intro w
    show (forIdx idxs f (updAt w i f)).length = w.length
    rw [ih]
    exact updAt_length f w i

theorem forIdx_get? {α : Type} (f : α → α) (hf : ∀ o, f (f o) = f o) :
    ∀ (idxs : List Nat) (w : List α) (n : Nat),
      (forIdx idxs f w).get? n =
        if n ∈ idxs then (w.get? n).map f else w.get? n := by
  have hmap : ∀ o : Option α, (o.map f).map f = o.map f := by
    intro o; cases o <;> simp [hf]
  intro idxs
  induction idxs with
  | nil => intro w n; simp [forIdx]
  | cons i idxs ih =>
    intro w n
    show (forIdx idxs f (updAt w i f)).get? n = _
    rw [ih, updAt_get? f w i n]
    by_cases h1 : n ∈ idxs
    · by_cases h2 : i = n <;> simp [h1, h2, hmap]
    · by_cases h2 : i = n
      · simp [h1, h2]
      · have h3 : ¬n = i := fun hc => h2 hc.symm
        simp [h1, h2, h3]

/-- C1 counterexample: `hide_override` over a component whose viewport
visibility was already off before acquisition (`hide_viewport = True`)
does not restore the pre-acquisition state — the `finally` block forces
`hide_viewport = False` unconditionally, so the flag is clobbered even
though no exception occurred. -/
theorem hide_override_clobbers_viewport :
    hide_override_run [0] false 1 [⟨false, true, false, false⟩] =
      [⟨false, false, false, false⟩] ∧
    hide_override_run [0] false 1 [⟨false, true, false, false⟩] ≠
      [⟨false, true, false, false⟩] := by
  constructor
  · rfl
  · decide

/-- C1 amended: the hide and holdout overrides restore the touched flags to
their DEFAULT values (`hide_render = hide_viewport = is_holdout = False`),
not to arbitrary pre-acquisition values; hence global state equals its
pre-acquisition value after the scope exits — whether or not an exception
cut the body short at any point (`j`, `k`) — exactly when every scene object
held those default flag values before acquisition (and the overridden
components are not library-linked, since `holdout_override` sets
`is_holdout` on linked components but refuses to clear it). -/
theorem override_exit_restores_defaults (comps : List Nat) (hv full : Bool)
    (j k : Nat) (w : List BObj)
    (hdef : ∀ o ∈ w, o.hide_render = false ∧ o.hide_viewport = false ∧
      o.is_holdout = false)
    (hcomps : ∀ i ∈ comps, ∀ o, w.get? i = some o → o.library = false) :
    hide_override_run comps hv k w = w ∧
    holdout_override_run comps full j k w = w := by
  have hENi : ∀ o, hideEnter hv (hideEnter hv o) = hideEnter hv o := by
    intro o; cases hv <;> simp [hideEnter]
  have hEXi : ∀ o, hideExit (hideExit o) = hideExit o := by
    intro o; simp [hideExit]
  have hAHi : ∀ o, holdAllHide (holdAllHide o) = holdAllHide o := by
    intro o; by_cases h : o.library <;> simp [holdAllHide, h]
  have hHEi : ∀ o, holdEnter (holdEnter o) = holdEnter o := by
    intro o; simp [holdEnter]
  have hUHi : ∀ o, holdExitUnhide (holdExitUnhide o) = holdExitUnhide o := by
    intro o; by_cases h : o.library <;> simp [holdExitUnhide, h]
  have hUOi : ∀ o, holdExitUnhold (holdExitUnhold o) = holdExitUnhold o := by
    intro o; by_cases h : o.library <;> simp [holdExitUnhold, h]
  constructor
  · apply List.ext_get?
    intro n
    unfold hide_override_run
    rw [forIdx_get? hideExit hEXi, forIdx_get? (hideEnter hv) hENi]
    by_cases hn : n ∈ comps
    · cases hw : w.get? n with
      | none => by_cases ht : n ∈ comps.take k <;> simp [hn, ht]
      | some o =>
        obtain ⟨hr, hvp, hh⟩ := hdef o (List.get?_mem hw)
        by_cases ht : n ∈ comps.take k
        · simp only [hn, ht, if_true, Option.map_map, Option.map_some',
            Function.comp_apply]
          congr 1
          cases o
          cases hv <;> simp_all [hideEnter, hideExit]
        · simp only [hn, ht, if_true, if_false, Option.map_some']
          congr 1
          cases o
          simp_all [hideExit]
    · have ht : n ∉ comps.take k := fun hc => hn (List.take_subset k comps hc)
      simp [hn, ht]
  · apply List.ext_get?
    intro n
    have hlen1 : (holdoutEnterState comps full j k w).length = w.length := by
      unfold holdoutEnterState
      cases full <;> simp [forIdx_length]
    have hwsget : (holdoutEnterState comps full j k w).get? n =
        (if n ∈ comps.take k then Option.map holdEnter else id)
          ((if full = true ∧ n ∈ (allIdx w).take j then Option.map holdAllHide else id)
            (w.get? n)) := by
      unfold holdoutEnterState
      rw [forIdx_get? holdEnter hHEi]
      cases hfull : full
      · by_cases hk2 : n ∈ comps.take k <;> simp [hk2]
      · rw [if_pos rfl, forIdx_get? holdAllHide hAHi]
        by_cases hj2 : n ∈ (allIdx w).take j <;>
          by_cases hk2 : n ∈ comps.take k <;> simp [hj2, hk2]
    unfold holdout_override_run
    rw [forIdx_get? holdExitUnhold hUOi, forIdx_get? holdExitUnhide hUHi, hwsget]
    cases hw : w.get? n with
    | none =>
      have hnin : n ∉ allIdx (holdoutEnterState comps full j k w) := by
        have hge : w.length ≤ n := List.get?_eq_none.mp hw
        simp only [allIdx, List.mem_range, hlen1, not_lt]
        exact hge
      by_cases hn : n ∈ comps <;>
        by_cases hk2 : n ∈ comps.take k <;>
        by_cases hfj : full = true ∧ n ∈ (allIdx w).take j <;>
        simp [hn, hk2, hfj, hnin]
    | some o =>
      have hlt : n < w.length := by
        rcases List.get?_eq_some.mp hw with ⟨h, _⟩
        exact h
      obtain ⟨hr, hvp, hh⟩ := hdef o (List.get?_mem hw)
      have hnin : n ∈ allIdx (holdoutEnterState comps full j k w) := by
        simp only [allIdx, List.mem_range, hlen1]
        exact hlt
      by_cases hn : n ∈ comps
      · have hlib : o.library = false := hcomps n hn o hw
        by_cases hk2 : n ∈ comps.take k <;>
          by_cases hfj : full = true ∧ n ∈ (allIdx w).take j <;>
          · simp only [hn, hk2, hfj, hnin, if_true, if_false, id_eq,
              Option.map_some', Option.map_map]
            congr 1
            cases o
            simp_all [holdAllHide, holdEnter, holdExitUnhide, holdExitUnhold]
      · have hk2 : n ∉ comps.take k := fun hc => hn (List.take_subset k comps hc)
        by_cases hfj : full = true ∧ n ∈ (allIdx w).take j <;>
          by_cases hlib : o.library <;>
          · simp only [hn, hk2, hfj, hnin, if_true, if_false, id_eq,
              Option.map_some', Option.map_map]
            congr 1
            cases o
            simp_all [holdAllHide, holdExitUnhide, holdExitUnhold]

/-- C1 witness: the amended restoration theorem evaluated on a concrete
one-object scene in its default state, with the object overridden, full
holdout mode, and the body cut at every stage. -/
theorem override_exit_restores_defaults_witness :
    hide_override_run [0] true 1 [⟨false, false, false, false⟩] =
      [⟨false, false, false, false⟩] ∧
    holdout_override_run [0] true 1 1 [⟨false, false, false, false⟩] =
      [⟨false, false, false, false⟩] :=
  override_exit_restores_defaults [0] true true 1 1 [⟨false, false, false, false⟩]
    (by decide) (by decide)

theorem lookup_dictSet {α : Type} (k k2 : String) (v : α) (d : List (String × α)) :
    (dictSet k v d).lookup k2 = if k2 = k then some v else d.lookup k2 := by
  induction d with
  | nil =>
    by_cases h : k2 = k
    · simp [dictSet, List.lookup, h]
    · have hb : (k2 == k) = false := beq_eq_false_iff_ne.mpr h
      simp [dictSet, List.lookup, h, hb]
  | cons kv rest ih =>
    by_cases h1 : kv.1 = k
    · by_cases h2 : k2 = k
      · have hb : (k2 == k) = true := beq_iff_eq.mpr h2
        simp [dictSet, List.lookup, h1, h2, hb]
      · have hb : (k2 == k) = false := beq_eq_false_iff_ne.mpr h2
        simp [dictSet, List.lookup, h1, h2, hb]
    · by_cases h2 : k2 = kv.1
      · have hne : ¬k2 = k := fun hc => h1 (by rw [← h2, hc])
        have hb : (k2 == kv.1) = true := beq_iff_eq.mpr h2
        have hb2 : (k2 == k) = false := beq_eq_false_iff_ne.mpr hne
        simp [dictSet, List.lookup, h1, hb, hb2, hne]
      · have hb : (k2 == kv.1) = false := beq_eq_false_iff_ne.mpr h2
        simp [dictSet, List.lookup, h1, hb, ih]

theorem savedKey_after_save (env : AlignEnv) (pos k : String) (cam : CameraState) :
    SavedKey k (camera_save_focus pos (camera_save_position pos (camera_align env pos cam))) ↔
      (k = pos ∨ SavedKey k cam) := by
  unfold SavedKey camera_save_focus camera_save_position camera_align
  simp only [lookup_dictSet]
  by_cases h : k = pos <;> simp [h]

theorem savePass_savedKey {env : AlignEnv} {pos k : String} {cams : List CameraState}
    {cam2 : CameraState} (h : cam2 ∈ savePass env pos cams)
    (hk : k = pos ∨ ∀ cam ∈ cams, SavedKey k cam) : SavedKey k cam2 := by
  unfold savePass at h
  obtain ⟨cam, hmem, heq⟩ := List.mem_map.mp h
  rw [← heq]
  refine (savedKey_after_save env pos k cam).mpr ?_
  rcases hk with hk | hall
  · exact Or.inl hk
  · exact Or.inr (hall cam hmem)

theorem camera_change_position_maps {k : String} {cam cam2 : CameraState}
    (h : camera_change_position k cam = some cam2) :
    cam2.positions = cam.positions ∧ cam2.focuses = cam.focuses := by
  unfold camera_change_position at h
  cases hm : cam.positions.lookup k with
  | none => rw [hm] at h; simp at h
  | some m =>
    cases hf : cam.focuses.lookup k with
    | none => rw [hm, hf] at h; simp at h
    | some f =>
      rw [hm, hf] at h
      have h1 : ({ cam with matrix_world := m, dof := f } : CameraState) = cam2 :=
        Option.some.inj h
      rw [← h1]
      exact ⟨rfl, rfl⟩

theorem changeAllTop_spec : ∀ cams : List CameraState,
    (∀ cam ∈ cams, SavedKey "TOP" cam) →
    ∃ cams2, changeAllTop cams = some cams2 ∧
      ∀ cam2 ∈ cams2, ∃ cam, cam ∈ cams ∧
        camera_change_position "TOP" cam = some cam2 := by
  intro cams
  induction cams with
  | nil => intro _; exact ⟨[], rfl, by simp⟩
  | cons c cs ih =>
    intro hall
    obtain ⟨hp, hf⟩ := hall c (by simp)
    obtain ⟨m, hm⟩ := Option.isSome_iff_exists.mp hp
    obtain ⟨f, hfe⟩ := Option.isSome_iff_exists.mp hf
    obtain ⟨cs2, hcs2, hmem⟩ := ih (fun cam h => hall cam (by simp [h]))
    have hc : camera_change_position "TOP" c =
        some { c with matrix_world := m, dof := f } := by
      unfold camera_change_position
      rw [hm, hfe]
    refine ⟨{ c with matrix_world := m, dof := f } :: cs2, ?_, ?_⟩
    · unfold changeAllTop
      rw [hc, hcs2]
    · intro cam2 h2
      rcases List.mem_cons.mp h2 with h2 | h2
      · exact ⟨c, by simp, by rw [hc, h2]⟩
      · obtain ⟨cam, hcam, hcp⟩ := hmem cam2 h2
        exact ⟨cam, by simp [hcam], hcp⟩

/-- C2: after `Studio._add_cameras` completes, for every declared position
preset P (TOP, BOTTOM, REAR) every camera in `Camera.objects` — and hence
every camera the Studio owns, a filtered subset of those — has a saved world
transform under key P in `positions` and a saved focus entry under key P in
`focuses`; the final `change_position("TOP")` pass succeeds and does not
touch the saved dictionaries. -/
theorem add_cameras_complete (env : AlignEnv) (customPresent : Bool)
    (cfgCameras : List String) (P : String)
    (hP : P ∈ studioPresets.map Prod.fst) :
    ∃ allCams studioCams,
      add_cameras env customPresent cfgCameras = some (allCams, studioCams) ∧
      (∀ cam ∈ studioCams, cam ∈ allCams) ∧
      (∀ cam ∈ allCams, SavedKey P cam) := by
  have hEq : addCamerasSaved env customPresent =
      savePass env "REAR" (savePass env "BOTTOM" (savePass env "TOP"
        (cameraPresetNames.map mkCamera ++
          (if customPresent then [mkCamera "CUSTOM"] else [])))) := rfl
  have hTOP : ∀ cam ∈ addCamerasSaved env customPresent, SavedKey "TOP" cam := by
    rw [hEq]
    intro cam h
    exact savePass_savedKey h (Or.inr (fun c2 h2 =>
      savePass_savedKey h2 (Or.inr (fun c3 h3 =>
        savePass_savedKey h3 (Or.inl rfl)))))
  have hBOT : ∀ cam ∈ addCamerasSaved env customPresent, SavedKey "BOTTOM" cam := by
    rw [hEq]
    intro cam h
    exact savePass_savedKey h (Or.inr (fun c2 h2 =>
      savePass_savedKey h2 (Or.inl rfl)))
  have hREAR : ∀ cam ∈ addCamerasSaved env customPresent, SavedKey "REAR" cam := by
    rw [hEq]
    intro cam h
    exact savePass_savedKey h (Or.inl rfl)
  obtain ⟨cams2, hch, hmem⟩ := changeAllTop_spec _ hTOP
  refine ⟨cams2, cams2.filter (fun cam => cfgCameras.contains cam.name), ?_, ?_, ?_⟩
  · unfold add_cameras
    rw [hch]
  · intro cam h
    exact List.mem_of_mem_filter h
  · intro cam hcam
    obtain ⟨cam0, hmem0, hcp⟩ := hmem cam hcam
    obtain ⟨hpos, hfoc⟩ := camera_change_position_maps hcp
    have hsaved : SavedKey P cam0 := by
      simp [studioPresets] at hP
      rcases hP with hP | hP | hP
      · rw [hP]; exact hTOP cam0 hmem0
      · rw [hP]; exact hBOT cam0 hmem0
      · rw [hP]; exact hREAR cam0 hmem0
    unfold SavedKey at hsaved ⊢
    rw [hpos, hfoc]
    exact hsaved

/-- C2 witness: the completeness theorem evaluated at a concrete alignment
environment, no custom camera, and the `TOP` preset. -/
theorem add_cameras_complete_witness :
    "TOP" ∈ studioPresets.map Prod.fst ∧
    (∃ allCams studioCams,
      add_cameras sampleAlignEnv false ["TOP"] = some (allCams, studioCams) ∧
      (∀ cam ∈ studioCams, cam ∈ allCams) ∧
      (∀ cam ∈ allCams, SavedKey "TOP" cam)) :=
  ⟨by decide, add_cameras_complete sampleAlignEnv false ["TOP"] "TOP" (by decide)⟩

/-- C3: calling `RendererWrapper.render` twice for the same camera and file
name without an intervening `clear_cache()` performs exactly one underlying
render operation: the first call renders once and loads the result into the
internal cache, and the second call leaves the render count and cache
untouched, only appending one re-save of the cached pixels per configured
output format. -/
theorem render_cache_reuse (env : REnv) (camera : Nat) (name : String)
    (h : env.loadOk = true) :
    (render env camera name none rendererInit).renderCount = 1 ∧
    (render env camera name none rendererInit).cache =
      some (env.renderedImage camera) ∧
    (render env camera name none (render env camera name none rendererInit)).renderCount = 1 ∧
    (render env camera name none (render env camera name none rendererInit)).cache =
      (render env camera name none rendererInit).cache ∧
    (render env camera name none (render env camera name none rendererInit)).saved =
      (render env camera name none rendererInit).saved ++
        env.formats.map
          (fun fmt => (env.renderPath ++ name ++ env.extOf fmt, env.renderedImage camera)) := by
  simp [render, init_render, rendererInit, h]

/-- C3 witness: the cache-reuse theorem evaluated at a concrete environment,
camera and file name. -/
theorem render_cache_reuse_witness :
    (render sampleREnv 7 "shot" none rendererInit).renderCount = 1 ∧
    (render sampleREnv 7 "shot" none rendererInit).cache =
      some (sampleREnv.renderedImage 7) ∧
    (render sampleREnv 7 "shot" none (render sampleREnv 7 "shot" none rendererInit)).renderCount = 1 ∧
    (render sampleREnv 7 "shot" none (render sampleREnv 7 "shot" none rendererInit)).cache =
      (render sampleREnv 7 "shot" none rendererInit).cache ∧
    (render sampleREnv 7 "shot" none (render sampleREnv 7 "shot" none rendererInit)).saved =
      (render sampleREnv 7 "shot" none rendererInit).saved ++
        sampleREnv.formats.map
          (fun fmt => (sampleREnv.renderPath ++ "shot" ++ sampleREnv.extOf fmt,
            sampleREnv.renderedImage 7)) :=
  render_cache_reuse sampleREnv 7 "shot" rfl

/-- C4: `RendererWrapper.thumbnail` does NOT follow the render cache-or-reuse
rule when no cached frame exists: the line
`self.cache = self._init_render(camera)` assigns the method's `None` return
value to the cache, so the call performs the expensive render, then discards
the loaded cache and returns without saving any thumbnail.  The reuse path is
intact: with a cached frame present, the cache and render count are untouched
and only scaled copies are saved. -/
theorem thumbnail_empty_cache_bug (env : REnv) (camera : Nat) (name : String) :
    (thumbnail env camera name none rendererInit).renderCount = 1 ∧
    (thumbnail env camera name none rendererInit).cache = none ∧
    (thumbnail env camera name none rendererInit).saved = [] ∧
    (∀ (img rc : Nat) (sv : List (String × Nat)),
      (thumbnail env camera name none ⟨some img, rc, sv⟩).cache = some img ∧
      (thumbnail env camera name none ⟨some img, rc, sv⟩).renderCount = rc ∧
      (thumbnail env camera name none ⟨some img, rc, sv⟩).saved = sv ++
        env.formats.map (fun fmt =>
          (env.renderPath ++ name ++ "_thumbnail" ++ env.extOf fmt, env.scaled img))) := by
  cases henv : env.loadOk <;>
    simp [thumbnail, init_render, rendererInit, henv]

/-- C5 counterexample: a parameter map whose `FRAMES` field has a
fundamentally mismatched type (an integer where a list is expected) does NOT
make the constructor fall back to all-default parameters: pydantic raises a
`ValidationError`, which the `except TypeError` clause does not catch, so the
constructor raises and the pipeline fails. -/
theorem get_params_mismatch_raises :
    get_params (.pyDict [("FRAMES", .pyInt 5)]) = .error .validationError ∧
    get_params (.pyDict [("FRAMES", .pyInt 5)]) ≠ .ok [] := by
  constructor
  · rfl
  · intro h
    have h2 : (Except.error PyErr.validationError : Except PyErr (List FrameSpec)) =
        .ok [] := h
    exact Except.noConfusion h2

/-- C5 amended: unknown fields are ignored (the result depends only on the
`FRAMES` binding) and missing fields take their declared defaults, but the
all-defaults fallback fires only when unpacking the supplied parameter object
raises `TypeError` (it is not a mapping); a supplied field whose value fails
schema validation raises a validation error that propagates out of the
constructor, while a well-typed field is parsed. -/
theorem get_params_spec :
    (∀ kvs kvs2 : List (String × PyVal),
      kvs.lookup "FRAMES" = kvs2.lookup "FRAMES" →
      get_params (.pyDict kvs) = get_params (.pyDict kvs2)) ∧
    (∀ kvs : List (String × PyVal), kvs.lookup "FRAMES" = none →
      get_params (.pyDict kvs) = .ok []) ∧
    (∀ n : Int, get_params (.pyInt n) = .ok []) ∧
    (∀ s : String, get_params (.pyStr s) = .ok []) ∧
    (∀ xs : List PyVal, get_params (.pyList xs) = .ok []) ∧
    (∀ (kvs : List (String × PyVal)) (v : PyVal),
      kvs.lookup "FRAMES" = some v → coerceFramesVal v = .error .validationError →
      get_params (.pyDict kvs) = .error .validationError) ∧
    (∀ (kvs : List (String × PyVal)) (v : PyVal) (fr : List FrameSpec),
      kvs.lookup "FRAMES" = some v → coerceFramesVal v = .ok fr →
      get_params (.pyDict kvs) = .ok fr) := by
  refine ⟨?_, ?_, fun n => rfl, fun s => rfl, fun xs => rfl, ?_, ?_⟩
  · intro kvs kvs2 h
    simp [get_params, schemaValidate, h]
  · intro kvs h
    simp [get_params, schemaValidate, h]
  · intro kvs v h1 h2
    simp [get_params, schemaValidate, h1, h2]
  · intro kvs v fr h1 h2
    simp [get_params, schemaValidate, h1, h2]

/-- C5 witness: the amended behaviour evaluated at concrete parameter maps —
an unknown extra field, a missing field, non-mapping arguments, an ill-typed
`FRAMES` value and a well-typed one. -/
theorem get_params_spec_witness :
    get_params (.pyDict [("EXTRA", .pyInt 1)]) = get_params (.pyDict []) ∧
    get_params (.pyDict [("EXTRA", .pyInt 1)]) = .ok [] ∧
    get_params (.pyInt 3) = .ok [] ∧
    get_params (.pyStr "x") = .ok [] ∧
    get_params (.pyList []) = .ok [] ∧
    get_params (.pyDict [("FRAMES", .pyStr "oops")]) = .error .validationError ∧
    get_params (.pyDict [("FRAMES", .pyList [.pyStr "start", .pyInt 7])]) =
      .ok [.fstart, .num 7] :=
  ⟨get_params_spec.1 [("EXTRA", .pyInt 1)] [] (by rfl),
   get_params_spec.2.1 [("EXTRA", .pyInt 1)] (by rfl),
   get_params_spec.2.2.1 3,
   get_params_spec.2.2.2.1 "x",
   get_params_spec.2.2.2.2.1 [],
   get_params_spec.2.2.2.2.2.1 [("FRAMES", .pyStr "oops")] (.pyStr "oops")
     (by rfl) (by rfl),
   get_params_spec.2.2.2.2.2.2 [("FRAMES", .pyList [.pyStr "start", .pyInt 7])]
     (.pyList [.pyStr "start", .pyInt 7]) [.fstart, .num 7] (by rfl) (by rfl)⟩

/-- C6 counterexample: a job whose resolved positions, cameras and backgrounds
are nonempty but whose enabled-parameter map is empty is NOT skipped:
`report` returns `0` and `execute` calls `iterate()`, although the claim
requires a skip whenever any dimension (including enabled parameters) is
empty. -/
theorem report_empty_params_no_skip :
    report ["TOP"] ["ISO"] ["transparent"] [] = 0 ∧
    execute_runs_iterate ["TOP"] ["ISO"] ["transparent"] [] = true := by
  constructor <;> rfl

/-- C6 amended: `report` returns the skip signal `1` exactly when the joined
display string of positions, cameras or backgrounds is empty (in particular
when one of those lists is empty); the parameter map never triggers a skip —
an empty map contributes no entry and a nonempty map always joins to a
nonempty string — and `execute` runs `iterate()` exactly when `report`
returned `0`. -/
theorem report_skip_iff (positions cameras backgrounds : List String)
    (params : List (String × String)) :
    (report positions cameras backgrounds params = 1 ↔
      (pyJoin ", " positions = "" ∨ pyJoin ", " cameras = "" ∨
        pyJoin ", " backgrounds = "")) ∧
    (execute_runs_iterate positions cameras backgrounds params = true ↔
      report positions cameras backgrounds params = 0) := by
  have hparams : params ≠ [] →
      pyJoin ", " (params.map (fun kv => kv.1 ++ "=" ++ kv.2)) ≠ "" := by
    intro hp
    apply pyJoin_ne_empty
    · simp [hp]
    · intro x hx
      obtain ⟨kv, _, rfl⟩ := List.mem_map.mp hx
      intro hempty
      have := congrArg String.length hempty
      simp [String.length_append] at this
      exact absurd this.1.2 (by decide)
  have hall : ((report_items positions cameras backgrounds params).all
      (fun item => item.2 != "")) = true ↔
      (pyJoin ", " positions ≠ "" ∧ pyJoin ", " cameras ≠ "" ∧
        pyJoin ", " backgrounds ≠ "") := by
    by_cases hp : params = []
    · simp [report_items, hp, bne_iff_ne]
    · simp [report_items, hp, bne_iff_ne, hparams hp]
  constructor
  · unfold report
    split_ifs with hcond
    · rw [hall] at hcond
      constructor
      · intro h; exact absurd h (by decide)
      · intro h
        rcases h with h | h | h
        · exact absurd h hcond.1
        · exact absurd h hcond.2.1
        · exact absurd h hcond.2.2
    · constructor
      · intro _
        by_contra hno
        push_neg at hno
        exact hcond (hall.mpr ⟨hno.1, hno.2.1, hno.2.2⟩)
      · intro _; rfl
  · simp [execute_runs_iterate, beq_iff_eq]

/-- C7 counterexample: a Studio whose classification is not PCB (here
`is_pcb = false`, a single-object scene with one ordinary object) gets
NONEMPTY `top_components` and `bottom_components`: the non-PCB branch fills
both lists with every passed object, contradicting the claim that they are
empty unless the classification is PCB. -/
theorem top_bottom_components_nonpcb_nonempty :
    get_top_bottom_components false none [⟨"cube", false, none⟩] ≠ ([], []) ∧
    get_top_bottom_components false none [⟨"cube", false, none⟩] =
      ([⟨"cube", false, none⟩], [⟨"cube", false, none⟩]) := by
  constructor
  · decide
  · rfl

/-- C7 amended: for a non-PCB classification the two membership lists are
equal, and an object is a member exactly when it is one of the objects passed
in whose name does not start with an underscore and which is not
library-linked; the lists are therefore generally nonempty — only the PCB
branch reads the per-object side tags. -/
theorem top_bottom_components_nonpcb_spec (componentsCol : Option (List SceneObj))
    (objects : List SceneObj) (o : SceneObj) :
    (get_top_bottom_components false componentsCol objects).1 =
      (get_top_bottom_components false componentsCol objects).2 ∧
    (o ∈ (get_top_bottom_components false componentsCol objects).1 ↔
      o ∈ objects ∧ pyStartsWith o.name "_" = false ∧ o.library = false) := by
  constructor
  · rfl
  · simp [get_top_bottom_components, List.mem_filter]

/-- C8: `change_position(key)` is idempotent and order-independent, for the
Studio (rotation assignment from the presets table) and for the Camera
(world-transform and focus assignment from the saved dictionaries): applying
it twice with one key equals applying it once, and a successful application
wipes out whatever position was applied before. -/
theorem change_position_idempotent (key key2 : String) (s s1 : StudioPos)
    (cam cam1 : CameraState)
    (hs : studio_change_position key s = some s1)
    (hc : camera_change_position key cam = some cam1)
    (hc2 : camera_change_position key2 cam = some cam1) :
    studio_change_position key s1 = some s1 ∧
    (∀ t t1 : StudioPos, studio_change_position key t = some t1 →
      t1.rotation_euler = s1.rotation_euler) ∧
    camera_change_position key cam1 = camera_change_position key cam ∧
    camera_change_position key2 cam1 = some cam1 := by
  refine ⟨?_, ?_, ?_, ?_⟩
  · unfold studio_change_position at hs ⊢
    exact hs
  · intro t t1 ht
    unfold studio_change_position at hs ht
    rw [hs] at ht
    rw [Option.some.inj ht]
  · cases hm : cam.positions.lookup key with
    | none => unfold camera_change_position at hc; rw [hm] at hc; simp at hc
    | some m =>
      cases hf : cam.focuses.lookup key with
      | none => unfold camera_change_position at hc; rw [hm, hf] at hc; simp at hc
      | some f =>
        unfold camera_change_position at hc
        rw [hm, hf] at hc
        have h1 : ({ cam with matrix_world := m, dof := f } : CameraState) = cam1 :=
          Option.some.inj hc
        subst h1
        rfl
  · cases hm : cam.positions.lookup key2 with
    | none => unfold camera_change_position at hc2; rw [hm] at hc2; simp at hc2
    | some m =>
      cases hf : cam.focuses.lookup key2 with
      | none => unfold camera_change_position at hc2; rw [hm, hf] at hc2; simp at hc2
      | some f =>
        unfold camera_change_position at hc2
        rw [hm, hf] at hc2
        have h1 : ({ cam with matrix_world := m, dof := f } : CameraState) = cam1 :=
          Option.some.inj hc2
        subst h1
        simp [camera_change_position, hm, hf]

/-- C8 witness: the theorem instantiated at the `TOP` preset for the Studio
and at a camera with `TOP` and `BOTTOM` saved. -/
theorem change_position_idempotent_witness :
    studio_change_position "TOP" ⟨(0, 0, 0)⟩ = some ⟨(0, 0, 0)⟩ ∧
    (∀ t t1 : StudioPos, studio_change_position "TOP" t = some t1 →
      t1.rotation_euler = (StudioPos.mk (0, 0, 0)).rotation_euler) := by
  have h := change_position_idempotent "TOP" "TOP" ⟨(0, 180, 0)⟩ ⟨(0, 0, 0)⟩
    ⟨"TOP", 7, (1, 2), [("TOP", 7)], [("TOP", (1, 2))]⟩
    ⟨"TOP", 7, (1, 2), [("TOP", 7)], [("TOP", (1, 2))]⟩
    (by decide) (by decide) (by decide)
  exact ⟨h.1, h.2.1⟩

/-- C10: `Job.update_status` treats a `total` argument of `0` the same as no
argument: `0` is falsy under the `if total:` test, so `update_status(0)`
increments the iteration counter instead of setting the denominator, and the
denominator can never become `0` through any sequence of calls starting from
a freshly constructed job. -/
theorem update_status_zero_like_none :
    (∀ s : JobProgress, update_status (some 0) s = update_status none s) ∧
    (∀ s : JobProgress, (update_status (some 0) s).iter = s.iter + 1 ∧
      (update_status (some 0) s).total = s.total) ∧
    (∀ calls : List (Option Int),
      (calls.foldl (fun s a => update_status a s) jobProgressInit).total ≠ 0) := by
  refine ⟨fun s => rfl, fun s => ⟨rfl, rfl⟩, fun calls => ?_⟩
  have step : ∀ (a : Option Int) (s : JobProgress), s.total ≠ 0 →
      (update_status a s).total ≠ 0 := by
    intro a s hs
    cases a with
    | none => simpa [update_status, pyTruthyOptInt] using hs
    | some t =>
      by_cases ht : t = 0
      · simpa [update_status, pyTruthyOptInt, ht] using hs
      · simp [update_status, pyTruthyOptInt, ht]
  have key : ∀ (l : List (Option Int)) (s : JobProgress), s.total ≠ 0 →
      (l.foldl (fun s a => update_status a s) s).total ≠ 0 := by
    intro l
    induction l with
    | nil => intro s hs; simp only [List.foldl_nil]; exact hs
    | cons a l ih =>
      intro s hs
      simp only [List.foldl_cons]
      exact ih _ (step a s hs)
  exact key calls jobProgressInit (by simp [jobProgressInit])

/-- C9: `UserAnimationJob._parse_frames` with `FRAMES=[]` records
`has_animation_data = False` and resolves the frame set to the singleton
holding the studio's `frame_start` anchor; with `FRAMES=["start","end"]` it
records `has_animation_data = True` and resolves to the set holding the
`frame_start` and `frame_end` anchors. -/
theorem parse_frames_spec (fs fe : Int) :
    parse_frames [] fs fe = (false, {fs}) ∧
    parse_frames [FrameSpec.fstart, FrameSpec.fend] fs fe = (true, {fs, fe}) := by
  constructor
  · simp [parse_frames, frameMapGet]
  · simp [parse_frames, frameMapGet]

end PCBooth
